import Mathlib

/-!
Shallow embedding of the ntpd-rs core under verification:

* ntp-proto/src/filter.rs — the RFC 5905 clock filter: the eight-stage shift
  register of filter tuples, the temporary list sorted by delay, and the
  peer statistics (offset, delay, dispersion, jitter) derived from them.
* ntp-daemon/src/peer.rs — the packet acceptor and the dispatch of
  handle_packet on the result of Peer::handle_incoming.

Conventions. The timestamp and duration arithmetic primitives live outside
the provided sources (the spec lists them as external collaborators), so they
are modelled from the words of the spec: durations are 32.32 signed
fixed-point values, modelled as unbounded integers; timestamps are 64-bit
fixed-point counts of seconds since the NTP era, modelled as natural numbers.
Rust i64 division truncates toward zero, hence Int.tdiv throughout. The
jitter computation uses double-precision floats in the source; it is modelled
over the exact reals, and the one place where the machine computation can
fail outright (the usize subtraction valid_tuples.len() - 1) has a dedicated
checked variant that records the underflow.
-/

/-- Modelled from the spec: NtpDuration, a 64-bit signed fixed-point duration
in 32.32 seconds format, is an external arithmetic primitive. The value is
modelled as an unbounded integer; every statement proved below stays well
inside the 64-bit range, where the model and the machine agree. -/
abbrev NtpDuration := ℤ

/-- Modelled from the spec: NtpTimestamp, a 64-bit fixed-point count of
seconds since the NTP era (32.32 format), modelled by its numeric value. -/
abbrev NtpTimestamp := ℕ

/-- Modelled from the spec: MAX_DISPERSION is the protocol constant of about
16 seconds; in 32.32 fixed point that is 16 * 2 ^ 32. -/
def NtpDuration.MAX_DISPERSION : NtpDuration := 16 * 2 ^ 32

/-- Modelled from the spec: the difference of two NTP timestamps as a signed
duration. The spec leaves the subtraction primitive out of scope and nowhere
gives it wrapping semantics, so it is the exact signed difference. -/
def NtpTimestamp.sub (a b : NtpTimestamp) : NtpDuration := (a : ℤ) - (b : ℤ)

/-- Modelled from the spec: conversion of a fixed-point duration to seconds.
The source converts to a double-precision float; the model uses the exact
real value. -/
noncomputable def NtpDuration.to_seconds (d : NtpDuration) : ℝ := (d : ℝ) / 2 ^ 32

/-- Modelled from the spec: the NTP leap indicator carried by a server. -/
inductive NtpLeapIndicator where
  | NoWarning
  | Leap61
  | Leap59
  | Unknown
deriving DecidableEq

/-- Modelled from the spec: the leap indicator indicates synchronized unless
it is Unknown. -/
def NtpLeapIndicator.is_synchronized : NtpLeapIndicator → Bool
  | .Unknown => false
  | _ => true

/-- From filter.rs: multiplication by the frequency tolerance PHI of 15 ppm,
written as (duration * 15) / 1_000_000 on i64 values; the division truncates
toward zero. -/
def multiply_by_phi (duration : NtpDuration) : NtpDuration :=
  (duration * 15).tdiv 1000000

/-- From filter.rs: one stage of the clock filter register. -/
structure FilterTuple where
  offset : NtpDuration
  delay : NtpDuration
  dispersion : NtpDuration
  time : NtpTimestamp
deriving DecidableEq

/-- From filter.rs: the distinguished dummy tuple. -/
def FilterTuple.DUMMY : FilterTuple :=
  { offset := 0
    delay := NtpDuration.MAX_DISPERSION
    dispersion := NtpDuration.MAX_DISPERSION
    time := 0 }

instance : Inhabited FilterTuple := ⟨FilterTuple.DUMMY⟩

/-- From filter.rs: a tuple is the dummy exactly when it equals DUMMY. -/
def FilterTuple.is_dummy (t : FilterTuple) : Bool := decide (t = FilterTuple.DUMMY)

/-- From filter.rs: the clock filter register. The source stores a fixed
array of exactly 8 tuples; the model stores a list and carries the length as
a hypothesis where a statement needs it. -/
structure ClockFilterContents where
  register : List FilterTuple
deriving DecidableEq

/-- From filter.rs: a freshly created register holds 8 dummy tuples. -/
def ClockFilterContents.new : ClockFilterContents :=
  { register := List.replicate 8 FilterTuple.DUMMY }

/-- From filter.rs, the loop body of shift_and_insert: a non-dummy slot has
the dispersion correction added to its dispersion (a dummy slot is left
unchanged, since aging it would change its identity). -/
def age_tuple (dispersion_correction : NtpDuration) (tuple : FilterTuple) : FilterTuple :=
  if tuple.is_dummy then tuple
  else { tuple with dispersion := tuple.dispersion + dispersion_correction }

/-- From filter.rs, the loop of shift_and_insert: each slot in turn is aged
and swapped with the current tuple, so each slot receives the tuple that
preceded it and the aged final slot is discarded when the register ends. -/
def shift_and_insert_loop (current : FilterTuple) (dispersion_correction : NtpDuration) :
    List FilterTuple → List FilterTuple
  | [] => []
  | tuple :: rest =>
      current :: shift_and_insert_loop (age_tuple dispersion_correction tuple)
        dispersion_correction rest

/-- From filter.rs: insert the new tuple at index 0, moving every other tuple
one slot to the right after aging it; the oldest tuple is discarded. -/
def ClockFilterContents.shift_and_insert (c : ClockFilterContents) (current : FilterTuple)
    (dispersion_correction : NtpDuration) : ClockFilterContents :=
  { register := shift_and_insert_loop current dispersion_correction c.register }

/-- From filter.rs: the comparison used to sort the temporary list. The
source compares delays with partial_cmp and treats incomparable values as
less; on the integer model the comparison is total, and the stable sort by
this key is insertion sort with the non-strict order. -/
abbrev byDelay : FilterTuple → FilterTuple → Prop := fun t1 t2 => t1.delay ≤ t2.delay

/-- From filter.rs: the temporary list, a copy of the register sorted by
increasing delay. -/
structure TemporaryList where
  register : List FilterTuple
deriving DecidableEq

/-- From filter.rs: build the temporary list by sorting a copy of the
register by delay (a stable sort, as in Rust sort_by). -/
def TemporaryList.from_clock_filter_contents (source : ClockFilterContents) : TemporaryList :=
  { register := List.insertionSort byDelay source.register }

/-- From filter.rs: the first element of the temporary list, the tuple of
smallest delay. The source indexes a fixed length-8 array; the default on an
empty list is never exercised under the register invariant. -/
def TemporaryList.smallest_delay (l : TemporaryList) : FilterTuple := l.register.headI

/-- From filter.rs: the prefix of the temporary list obtained by counting the
trailing dummy tuples and keeping everything before them. -/
def TemporaryList.valid_tuples (l : TemporaryList) : List FilterTuple :=
  let num_invalid_tuples := (l.register.reverse.takeWhile (fun t => t.is_dummy)).length
  let num_valid_tuples := l.register.length - num_invalid_tuples
  l.register.take num_valid_tuples

/-- From filter.rs: the dispersion of the temporary list, the sum over the
stages of dispersion_i / 2 ^ (i + 1) with truncating i64 division. -/
def TemporaryList.dispersion (l : TemporaryList) : NtpDuration :=
  (l.register.enum.map (fun p => p.2.dispersion.tdiv (2 ^ (p.1 + 1)))).foldl (· + ·) 0

/-- Helper for reasoning about TemporaryList.dispersion: the same weighted
sum written as a recursion, with 2 ^ k the weight of the head. -/
def dispersion_sum (k : ℕ) : List FilterTuple → ℤ
  | [] => 0
  | t :: rest => t.dispersion.tdiv (2 ^ k) + dispersion_sum (k + 1) rest

/-- From filter.rs, jitter_help: the root of the summed squares of the offset
differences to the smallest-delay tuple, divided by n - 1 and bounded below
by the system precision. The source computes on double-precision floats and
the length subtraction on usize; the model computes on exact reals and the
length subtraction on naturals, so on an empty slice the subtraction
collapses to 0 where the machine subtraction underflows (the checked variant
below records that underflow instead). -/
noncomputable def jitter_help (valid_tuples : List FilterTuple)
    (smallest_delay : FilterTuple) (system_precision : ℝ) : ℝ :=
  let root_mean_square :=
    Real.sqrt ((valid_tuples.map
      (fun t => NtpDuration.to_seconds (t.offset - smallest_delay.offset) ^ 2)).sum)
  let jitter := root_mean_square / ((valid_tuples.length - 1 : ℕ) : ℝ)
  max jitter system_precision

/-- From filter.rs: the jitter of the temporary list. -/
noncomputable def TemporaryList.jitter (l : TemporaryList) (smallest_delay : FilterTuple)
    (system_precision : ℝ) : ℝ :=
  jitter_help l.valid_tuples smallest_delay system_precision

/-- From filter.rs: the statistics handed to the supervisor on an accepted
sample. -/
structure PeerStatistics where
  offset : NtpDuration
  delay : NtpDuration
  dispersion : NtpDuration
  jitter : ℝ
  filter : ClockFilterContents
  filter_time : NtpTimestamp

/-- From filter.rs: the clock filter. The register is taken by value, shifted
and aged, and returned only inside the Some result; none is the rejection by
the newness check. -/
noncomputable def clock_filter (peer_time : NtpTimestamp) (system_precision : ℝ)
    (leap_indicator : NtpLeapIndicator) (cf : ClockFilterContents)
    (new_tuple : FilterTuple) : Option PeerStatistics :=
  let dispersion_correction := multiply_by_phi (NtpTimestamp.sub new_tuple.time peer_time)
  let clock_filter := cf.shift_and_insert new_tuple dispersion_correction
  let temporary_list := TemporaryList.from_clock_filter_contents clock_filter
  let smallest_delay := temporary_list.smallest_delay
  if NtpTimestamp.sub smallest_delay.time peer_time ≤ 0 ∧
      leap_indicator.is_synchronized = true then
    none
  else
    some
      { offset := smallest_delay.offset
        delay := smallest_delay.delay
        dispersion := temporary_list.dispersion
        jitter := temporary_list.jitter smallest_delay system_precision
        filter := clock_filter
        filter_time := smallest_delay.time }

/-- Panic-aware variant of jitter_help. In the source the average divides by
valid_tuples.len() - 1, a usize subtraction that underflows exactly when the
slice is empty (an abort when overflow checks are enabled); none marks that
underflow. -/
noncomputable def jitter_help_checked (valid_tuples : List FilterTuple)
    (smallest_delay : FilterTuple) (system_precision : ℝ) : Option ℝ :=
  if valid_tuples.length = 0 then none
  else some (jitter_help valid_tuples smallest_delay system_precision)

/-- Panic-aware variant of clock_filter, identical to clock_filter except
that the jitter computation goes through jitter_help_checked: the outer none
means the run reaches the underflowing length subtraction, and some r is the
normal result r. -/
noncomputable def clock_filter_checked (peer_time : NtpTimestamp) (system_precision : ℝ)
    (leap_indicator : NtpLeapIndicator) (cf : ClockFilterContents)
    (new_tuple : FilterTuple) : Option (Option PeerStatistics) :=
  let dispersion_correction := multiply_by_phi (NtpTimestamp.sub new_tuple.time peer_time)
  let clock_filter := cf.shift_and_insert new_tuple dispersion_correction
  let temporary_list := TemporaryList.from_clock_filter_contents clock_filter
  let smallest_delay := temporary_list.smallest_delay
  if NtpTimestamp.sub smallest_delay.time peer_time ≤ 0 ∧
      leap_indicator.is_synchronized = true then
    some none
  else
    (jitter_help_checked temporary_list.valid_tuples smallest_delay system_precision).map
      (fun jitter =>
        some
          { offset := smallest_delay.offset
            delay := smallest_delay.delay
            dispersion := temporary_list.dispersion
            jitter := jitter
            filter := clock_filter
            filter_time := smallest_delay.time })

/-- From peer.rs: the reset epoch, an unsigned 64-bit counter with wrapping
increment. -/
structure ResetEpoch where
  val : ℕ
deriving DecidableEq

/-- From peer.rs: wrapping increment of the reset epoch. -/
def ResetEpoch.inc (e : ResetEpoch) : ResetEpoch := { val := (e.val + 1) % 2 ^ 64 }

/-- From peer.rs: the dense peer identifier assigned by the supervisor. -/
structure PeerIndex where
  index : ℕ
deriving DecidableEq

/-- Modelled from the spec: the ignore-reason taxonomy returned by
Peer::handle_incoming (the Peer state itself lives in ntp-proto outside the
provided sources). -/
inductive IgnoreReason where
  | KissDemobilize
  | KissRateLimit
  | InvalidMode
  | InvalidStratum
  | OriginMismatch
  | DuplicateOrReplay
  | FilterRejectedAsOld
deriving DecidableEq

/-- From peer.rs: the messages a peer task sends to the supervisor. The peer
snapshot payload is opaque to the claims here, so it is a type parameter. -/
inductive MsgForSystem (S : Type) where
  | MustDemobilize (index : PeerIndex)
  | NewMeasurement (index : PeerIndex) (epoch : ResetEpoch) (snapshot : S)
  | UpdatedSnapshot (index : PeerIndex) (epoch : ResetEpoch) (snapshot : S)

/-- From peer.rs: the ControlFlow value handle_packet returns to the event
loop; the loop continues on Continue and exits on Break. -/
inductive LoopFlow where
  | Continue
  | Break
deriving DecidableEq

/-- From peer.rs, handle_packet: the dispatch on the result of
Peer::handle_incoming. The returned list holds the messages sent to the
supervisor, in order; the flow value is what the event loop matches on. The
await plumbing and the poll-deadline update around this dispatch carry no
data into it and are not modelled. -/
def handle_packet {S : Type} (index : PeerIndex) (reset_epoch : ResetEpoch)
    (result : Except IgnoreReason S) : List (MsgForSystem S) × LoopFlow :=
  match result with
  | .ok update =>
      ([MsgForSystem.NewMeasurement index reset_epoch update], LoopFlow.Continue)
  | .error IgnoreReason.KissDemobilize =>
      ([MsgForSystem.MustDemobilize index], LoopFlow.Break)
  | .error _ => ([], LoopFlow.Continue)

/-- Modelled from the spec: the 48-byte NTP header wire codec is an external
collaborator; a header is modelled as the raw buffer it was deserialized
from. -/
structure NtpHeader where
  raw : List ℕ
deriving DecidableEq

/-- Modelled from the spec: deserialization of the receive buffer, modelled
as carrying the buffer. -/
def NtpHeader.deserialize (buf : List ℕ) : NtpHeader := { raw := buf }

/-- From peer.rs: the result of UdpSocket::recv, either an input error or a
received size together with an optional kernel receive timestamp. The buffer
itself is a separate argument, as in the source. -/
inductive RecvResult where
  | ok (size : ℕ) (timestamp : Option NtpTimestamp)
  | err
deriving DecidableEq

/-- From peer.rs: accept_packet. A packet is accepted only when recv
succeeded, a kernel timestamp is present and at least 48 bytes arrived; the
header is deserialized from the 48-byte buffer (recv truncates anything
longer, so extension bytes are ignored). -/
def accept_packet (result : RecvResult) (buf : List ℕ) :
    Option (NtpHeader × NtpTimestamp) :=
  match result with
  | .ok size (some recv_timestamp) =>
      if size < 48 then none
      else some (NtpHeader.deserialize buf, recv_timestamp)
  | .ok _ none => none
  | .err => none

/-- Concrete tuple with a delay above MAX_DISPERSION, used as an input. -/
def big_delay_tuple : FilterTuple :=
  { offset := 0
    delay := NtpDuration.MAX_DISPERSION + 2 ^ 32
    dispersion := 0
    time := 2 ^ 32 }

/-- Concrete register tuple lying in the future of a peer_time of 0. -/
def future_time_tuple : FilterTuple :=
  { offset := 0, delay := 0, dispersion := 0, time := 5 }

/-- Concrete new tuple that is not newer than a peer_time of 0. -/
def stale_tuple : FilterTuple :=
  { offset := 0, delay := 2 ^ 32, dispersion := 0, time := 0 }

/-- Concrete tuple whose dispersion exceeds MAX_DISPERSION (about 32 s, as
reachable after repeated aging). -/
def high_dispersion_tuple : FilterTuple :=
  { offset := 0, delay := 0, dispersion := 2 ^ 37, time := 0 }

/-! Helper lemmas about the shift loop. -/

theorem shift_and_insert_loop_length (corr : NtpDuration) (l : List FilterTuple) :
    ∀ current : FilterTuple, (shift_and_insert_loop current corr l).length = l.length := by
  induction l with
  | nil => intro current; rfl
  | cons t rest ih => intro current; simp [shift_and_insert_loop, ih]

theorem shift_and_insert_loop_getElem (corr : NtpDuration) (l : List FilterTuple) :
    ∀ (current : FilterTuple) (i : ℕ), i + 1 < l.length →
      (shift_and_insert_loop current corr l)[i + 1]? = (l[i]?).map (age_tuple corr) := by
  induction l with
  | nil => intro current i h; simp at h
  | cons t rest ih =>
    intro current i h
    cases i with
    | zero =>
      cases rest with
      | nil => simp at h
      | cons u rest2 => simp [shift_and_insert_loop]
    | succ j =>
      simp only [shift_and_insert_loop, List.getElem?_cons_succ]
      exact ih (age_tuple corr t) j (by simpa using h)

theorem mem_shift_and_insert_loop (corr : NtpDuration) (l : List FilterTuple) :
    ∀ (current x : FilterTuple), x ∈ shift_and_insert_loop current corr l →
      x = current ∨ ∃ u ∈ l, x = age_tuple corr u := by
  induction l with
  | nil => intro current x hx; simp [shift_and_insert_loop] at hx
  | cons t rest ih =>
    intro current x hx
    simp only [shift_and_insert_loop, List.mem_cons] at hx
    rcases hx with rfl | hx
    · exact Or.inl rfl
    · rcases ih (age_tuple corr t) x hx with rfl | ⟨u, hu, rfl⟩
      · exact Or.inr ⟨t, List.mem_cons_self t rest, rfl⟩
      · exact Or.inr ⟨u, List.mem_cons_of_mem t hu, rfl⟩

theorem age_tuple_time (corr : NtpDuration) (u : FilterTuple) :
    (age_tuple corr u).time = u.time := by
  unfold age_tuple; split <;> rfl

/-- C4: for every 8-stage register and every new tuple, shift_and_insert keeps
the register length exactly 8, places the new tuple unmodified at index 0, and
moves each previous tuple at index i < 7 to index i + 1 after applying
age_tuple with the correction PHI * (new_tuple.time - peer_time); age_tuple
adds the correction to the dispersion exactly when the tuple is not DUMMY and
leaves a DUMMY tuple unmodified. The previous tuple at index 7 is discarded,
since the result again has length 8 and indices 1..7 are images of old
indices 0..6. -/
theorem shift_and_insert_spec (c : ClockFilterContents) (t : FilterTuple)
    (peer_time : NtpTimestamp) (h8 : c.register.length = 8) :
    ((c.shift_and_insert t (multiply_by_phi (NtpTimestamp.sub t.time peer_time))).register.length = 8
      ∧ (c.shift_and_insert t
          (multiply_by_phi (NtpTimestamp.sub t.time peer_time))).register.head? = some t)
    ∧ (∀ i : ℕ, i < 7 →
        (c.shift_and_insert t
            (multiply_by_phi (NtpTimestamp.sub t.time peer_time))).register[i + 1]? =
          (c.register[i]?).map (age_tuple (multiply_by_phi (NtpTimestamp.sub t.time peer_time))))
    ∧ (∀ u : FilterTuple, u.is_dummy = true →
        age_tuple (multiply_by_phi (NtpTimestamp.sub t.time peer_time)) u = u)
    ∧ ∀ u : FilterTuple, u.is_dummy = false →
        age_tuple (multiply_by_phi (NtpTimestamp.sub t.time peer_time)) u =
          { u with dispersion :=
              u.dispersion + multiply_by_phi (NtpTimestamp.sub t.time peer_time) } := by
  refine ⟨⟨?_, ?_⟩, ?_, ?_, ?_⟩
  · simp [ClockFilterContents.shift_and_insert, shift_and_insert_loop_length, h8]
  · have hne : c.register ≠ [] := by intro hnil; rw [hnil] at h8; simp at h8
    obtain ⟨a, l2, hl⟩ := List.exists_cons_of_ne_nil hne
    simp [ClockFilterContents.shift_and_insert, hl, shift_and_insert_loop]
  · intro i hi
    exact shift_and_insert_loop_getElem _ c.register t i (by omega)
  · intro u hu; simp [age_tuple, hu]
  · intro u hu; simp [age_tuple, hu]

/-- C10: the shifted and aged register is produced only inside the Some
result of clock_filter: whenever the result is Some, its filter field is
exactly shift_and_insert of the input register, and a None result carries no
register at all (by its type), so a caller keeping its own register is
unchanged on rejection. -/
theorem clock_filter_register_only_in_some (peer_time : NtpTimestamp)
    (system_precision : ℝ) (leap_indicator : NtpLeapIndicator) (c : ClockFilterContents)
    (t : FilterTuple) :
    (clock_filter peer_time system_precision leap_indicator c t).map PeerStatistics.filter =
      (clock_filter peer_time system_precision leap_indicator c t).map
        (fun _ => c.shift_and_insert t (multiply_by_phi (NtpTimestamp.sub t.time peer_time))) := by
  simp only [clock_filter]
  split <;> rfl

/-! Dispersion helpers. -/

theorem foldl_enumFrom_dispersion (l : List FilterTuple) :
    ∀ (n : ℕ) (acc : ℤ),
      ((List.enumFrom n l).map (fun p => p.2.dispersion.tdiv (2 ^ (p.1 + 1)))).foldl (· + ·) acc =
        acc + dispersion_sum (n + 1) l := by
  induction l with
  | nil => intro n acc; simp [dispersion_sum]
  | cons t rest ih =>
    intro n acc
    simp only [List.enumFrom_cons, List.map_cons, List.foldl_cons, dispersion_sum]
    rw [ih (n + 1) (acc + t.dispersion.tdiv (2 ^ (n + 1)))]
    ring

theorem dispersion_eq_dispersion_sum (l : TemporaryList) :
    l.dispersion = dispersion_sum 1 l.register := by
  have h := foldl_enumFrom_dispersion l.register 0 0
  simpa [TemporaryList.dispersion, List.enum] using h

theorem dispersion_sum_le (l : List FilterTuple) :
    ∀ k : ℕ, (∀ u ∈ l, 0 ≤ u.dispersion ∧ u.dispersion ≤ NtpDuration.MAX_DISPERSION) →
      dispersion_sum (k + 1) l ≤ NtpDuration.MAX_DISPERSION.tdiv (2 ^ k) := by
  induction l with
  | nil =>
    intro k _
    simp only [dispersion_sum]
    exact Int.tdiv_nonneg (by norm_num [NtpDuration.MAX_DISPERSION]) (by positivity)
  | cons t rest ih =>
    intro k h
    have ht := h t (List.mem_cons_self t rest)
    have hM : (0 : ℤ) ≤ NtpDuration.MAX_DISPERSION := by norm_num [NtpDuration.MAX_DISPERSION]
    have h1 : t.dispersion.tdiv (2 ^ (k + 1)) ≤ NtpDuration.MAX_DISPERSION.tdiv (2 ^ (k + 1)) := by
      rw [Int.tdiv_eq_ediv ht.1 (by positivity), Int.tdiv_eq_ediv hM (by positivity)]
      exact Int.ediv_le_ediv (by positivity) ht.2
    have h2 : dispersion_sum (k + 1 + 1) rest ≤ NtpDuration.MAX_DISPERSION.tdiv (2 ^ (k + 1)) :=
      ih (k + 1) (fun u hu => h u (List.mem_cons_of_mem t hu))
    have h3 : NtpDuration.MAX_DISPERSION.tdiv (2 ^ (k + 1)) +
        NtpDuration.MAX_DISPERSION.tdiv (2 ^ (k + 1)) ≤
        NtpDuration.MAX_DISPERSION.tdiv (2 ^ k) := by
      rw [Int.tdiv_eq_ediv hM (by positivity), Int.tdiv_eq_ediv hM (by positivity)]
      have e1 : NtpDuration.MAX_DISPERSION = ((2 ^ 36 : ℕ) : ℤ) := by
        norm_num [NtpDuration.MAX_DISPERSION]
      have e2 : ((2 : ℤ) ^ (k + 1)) = ((2 ^ (k + 1) : ℕ) : ℤ) := by push_cast; ring
      have e3 : ((2 : ℤ) ^ k) = ((2 ^ k : ℕ) : ℤ) := by push_cast; ring
      rw [e1, e2, e3]
      have hnat : (2 : ℕ) ^ 36 / 2 ^ (k + 1) + 2 ^ 36 / 2 ^ (k + 1) ≤ 2 ^ 36 / 2 ^ k := by
        have hp : (2 : ℕ) ^ (k + 1) = 2 ^ k * 2 := pow_succ 2 k
        rw [hp, ← Nat.div_div_eq_div_mul]
        omega
      exact_mod_cast hnat
    simp only [dispersion_sum]
    linarith

/-- C3 (amended): for every temporary list all of whose entries have
dispersion in the interval [0, MAX_DISPERSION], the computed dispersion (the
sum of dispersion_i / 2 ^ (i + 1)) is at most MAX_DISPERSION. The claim as
stated, for arbitrary dispersion values, is refuted by
dispersion_c3_counterexample. -/
theorem dispersion_le_max_dispersion (l : TemporaryList)
    (h : ∀ u ∈ l.register, 0 ≤ u.dispersion ∧ u.dispersion ≤ NtpDuration.MAX_DISPERSION) :
    l.dispersion ≤ NtpDuration.MAX_DISPERSION := by
  rw [dispersion_eq_dispersion_sum]
  have hb := dispersion_sum_le l.register 0 h
  simpa using hb

theorem dispersion_le_max_dispersion_witness :
    (TemporaryList.mk (List.replicate 8 FilterTuple.DUMMY)).dispersion ≤
      NtpDuration.MAX_DISPERSION :=
  dispersion_le_max_dispersion _ (by decide)

/-- C1 (amended): for every nonempty (in particular the 8-stage) register
all of whose tuples have time at most peer_time, and every new tuple t with
t.time at most peer_time, if the leap indicator indicates synchronized then
clock_filter returns None. The claim as stated, without the condition on the
register tuples, is refuted by clock_filter_c1_counterexample. -/
theorem clock_filter_none_of_no_newer_sample (peer_time : NtpTimestamp)
    (system_precision : ℝ) (leap_indicator : NtpLeapIndicator) (c : ClockFilterContents)
    (t : FilterTuple) (hne : c.register ≠ [])
    (hreg : ∀ u ∈ c.register, u.time ≤ peer_time) (ht : t.time ≤ peer_time)
    (hsync : leap_indicator.is_synchronized = true) :
    clock_filter peer_time system_precision leap_indicator c t = none := by
  have hmem : ∀ x ∈ (TemporaryList.from_clock_filter_contents
      (c.shift_and_insert t (multiply_by_phi (NtpTimestamp.sub t.time peer_time)))).register,
      x.time ≤ peer_time := by
    intro x hx
    have hperm := List.perm_insertionSort byDelay
      (c.shift_and_insert t (multiply_by_phi (NtpTimestamp.sub t.time peer_time))).register
    have hx2 : x ∈ (c.shift_and_insert t
        (multiply_by_phi (NtpTimestamp.sub t.time peer_time))).register :=
      hperm.mem_iff.mp hx
    rcases mem_shift_and_insert_loop _ _ _ _ hx2 with rfl | ⟨u, hu, rfl⟩
    · exact ht
    · rw [age_tuple_time]; exact hreg u hu
  have hlen : (TemporaryList.from_clock_filter_contents
      (c.shift_and_insert t (multiply_by_phi (NtpTimestamp.sub t.time peer_time)))).register ≠
      [] := by
    intro hnil
    have h1 := congrArg List.length hnil
    simp [TemporaryList.from_clock_filter_contents, List.length_insertionSort,
      ClockFilterContents.shift_and_insert, shift_and_insert_loop_length] at h1
    exact hne h1
  have hsm : NtpTimestamp.sub (TemporaryList.smallest_delay
      (TemporaryList.from_clock_filter_contents
        (c.shift_and_insert t
          (multiply_by_phi (NtpTimestamp.sub t.time peer_time))))).time peer_time ≤ 0 := by
    obtain ⟨a, l2, hl⟩ := List.exists_cons_of_ne_nil hlen
    have ha : a.time ≤ peer_time := hmem a (by rw [hl]; exact List.mem_cons_self a l2)
    simp only [TemporaryList.smallest_delay]
    rw [hl]
    show NtpTimestamp.sub a.time peer_time ≤ 0
    have he : NtpTimestamp.sub a.time peer_time = (a.time : ℤ) - (peer_time : ℤ) := rfl
    rw [he]
    have h2 : (a.time : ℤ) ≤ (peer_time : ℤ) := by exact_mod_cast ha
    linarith
  simp only [clock_filter]
  rw [if_pos ⟨hsm, hsync⟩]

theorem clock_filter_none_of_no_newer_sample_witness :
    clock_filter 0 0 NtpLeapIndicator.NoWarning ClockFilterContents.new stale_tuple = none :=
  clock_filter_none_of_no_newer_sample 0 0 NtpLeapIndicator.NoWarning ClockFilterContents.new
    stale_tuple (by decide) (by decide) (by decide) (by decide)

/-- C7: the dispersion of an all-DUMMY register equals
MAX_DISPERSION * (1 - 2 ^ (-8 : ℤ)); expressed in seconds it differs from
MAX_DISPERSION, about 16 s, by exactly 1/16 s, which is less than 0.1. -/
theorem dispersion_all_dummy :
    ((TemporaryList.mk (List.replicate 8 FilterTuple.DUMMY)).dispersion : ℝ) =
      (NtpDuration.MAX_DISPERSION : ℝ) * (1 - (1 / 2) ^ 8)
    ∧ |NtpDuration.to_seconds (TemporaryList.mk (List.replicate 8 FilterTuple.DUMMY)).dispersion -
        NtpDuration.to_seconds NtpDuration.MAX_DISPERSION| < 1 / 10 := by
  have h : (TemporaryList.mk (List.replicate 8 FilterTuple.DUMMY)).dispersion = 68451041280 := by
    decide
  rw [h]
  constructor
  · norm_num [NtpDuration.MAX_DISPERSION]
  · rw [abs_lt]
    constructor <;> norm_num [NtpDuration.to_seconds, NtpDuration.MAX_DISPERSION]

/-! Valid-tuple helpers. -/

theorem take_reverse_dropWhile (p : FilterTuple → Bool) (rl : List FilterTuple) :
    rl.reverse.take (rl.reverse.length - (rl.takeWhile p).length) = (rl.dropWhile p).reverse := by
  obtain ⟨T, D, hT, hD, hTD⟩ :
      ∃ T D, rl.takeWhile p = T ∧ rl.dropWhile p = D ∧ rl = T ++ D :=
    ⟨_, _, rfl, rfl, (List.takeWhile_append_dropWhile p rl).symm⟩
  rw [hT, hD, hTD, List.reverse_append]
  have hn : (D.reverse ++ T.reverse).length - T.length = D.reverse.length := by
    simp [List.length_append, List.length_reverse]
  rw [hn, List.take_left]

theorem valid_tuples_eq_dropWhile (l : TemporaryList) :
    l.valid_tuples = (l.register.reverse.dropWhile (fun t => t.is_dummy)).reverse := by
  simp only [TemporaryList.valid_tuples]
  have h := take_reverse_dropWhile (fun t => t.is_dummy) l.register.reverse
  rw [List.reverse_reverse] at h
  exact h

theorem dropWhile_dummy_eq_filter (rl : List FilterTuple)
    (hs : rl.Pairwise (fun a b => b.delay ≤ a.delay))
    (hd : ∀ u ∈ rl, u.is_dummy = false → u.delay < NtpDuration.MAX_DISPERSION) :
    rl.dropWhile (fun t => t.is_dummy) = rl.filter (fun t => ! t.is_dummy) := by
  induction rl with
  | nil => rfl
  | cons t rest ih =>
    have hs1 := (List.pairwise_cons.mp hs).1
    have hs2 := (List.pairwise_cons.mp hs).2
    have hd2 : ∀ u ∈ rest, u.is_dummy = false → u.delay < NtpDuration.MAX_DISPERSION :=
      fun u hu h => hd u (List.mem_cons_of_mem t hu) h
    cases htd : t.is_dummy with
    | true =>
      simp only [List.dropWhile_cons, List.filter_cons, htd]
      simp [ih hs2 hd2]
    | false =>
      have hrest : ∀ u ∈ rest, (! u.is_dummy) = true := by
        intro u hu
        have h1 : u.delay ≤ t.delay := hs1 u hu
        have h2 : t.delay < NtpDuration.MAX_DISPERSION := hd t (List.mem_cons_self t rest) htd
        by_contra hcon
        have hud : u = FilterTuple.DUMMY := by
          have : u.is_dummy = true := by
            cases hu2 : u.is_dummy with
            | true => rfl
            | false => rw [hu2] at hcon; exact absurd rfl hcon
          simpa [FilterTuple.is_dummy] using this
        rw [hud] at h1
        simp only [FilterTuple.DUMMY] at h1
        linarith
      simp only [List.dropWhile_cons, List.filter_cons, htd]
      simp [List.filter_eq_self.mpr hrest]

/-- C6 (amended): for every temporary list sorted by increasing delay in
which every non-DUMMY tuple has delay strictly below MAX_DISPERSION, the
slice returned by valid_tuples is exactly the sublist of non-DUMMY tuples:
every returned tuple is non-DUMMY, and every non-DUMMY tuple of the list is
returned. The claim as stated, without the bound on non-DUMMY delays, is
refuted by valid_tuples_c6_counterexample. -/
theorem valid_tuples_exactly_non_dummy (l : TemporaryList)
    (hs : List.Sorted byDelay l.register)
    (hd : ∀ u ∈ l.register, u.is_dummy = false → u.delay < NtpDuration.MAX_DISPERSION) :
    l.valid_tuples = l.register.filter (fun t => ! t.is_dummy) := by
  rw [valid_tuples_eq_dropWhile]
  rw [dropWhile_dummy_eq_filter l.register.reverse ?_ ?_]
  · rw [← List.filter_reverse, List.reverse_reverse]
  · rw [List.pairwise_reverse]
    exact hs
  · intro u hu h
    exact hd u (List.mem_reverse.mp hu) h

theorem valid_tuples_exactly_non_dummy_witness :
    (TemporaryList.from_clock_filter_contents
        { register := future_time_tuple :: List.replicate 7 FilterTuple.DUMMY }).valid_tuples =
      (TemporaryList.from_clock_filter_contents
        { register := future_time_tuple :: List.replicate 7 FilterTuple.DUMMY }).register.filter
        (fun t => ! t.is_dummy) :=
  valid_tuples_exactly_non_dummy _ (by decide) (by decide)

/-- C6 counterexample: a sorted temporary list whose last tuple is
non-DUMMY with delay above MAX_DISPERSION keeps all seven leading DUMMY
tuples inside the prefix returned by valid_tuples; in particular the first
returned tuple is the DUMMY itself, refuting the claim that every returned
tuple is non-DUMMY. -/
theorem valid_tuples_c6_counterexample :
    (TemporaryList.from_clock_filter_contents
        { register := big_delay_tuple :: List.replicate 7 FilterTuple.DUMMY }).valid_tuples.head? =
      some FilterTuple.DUMMY
    ∧ FilterTuple.DUMMY.is_dummy = true
    ∧ List.Sorted byDelay (TemporaryList.from_clock_filter_contents
        { register := big_delay_tuple :: List.replicate 7 FilterTuple.DUMMY }).register := by
  refine ⟨by decide, by decide, ?_⟩
  decide

/-! Single-sample helpers for C2. -/

theorem shift_loop_replicate_dummy (corr : NtpDuration) (n : ℕ) :
    ∀ current : FilterTuple,
      shift_and_insert_loop current corr (List.replicate (n + 1) FilterTuple.DUMMY) =
        current :: List.replicate n FilterTuple.DUMMY := by
  have hD : age_tuple corr FilterTuple.DUMMY = FilterTuple.DUMMY := by
    simp [age_tuple, FilterTuple.is_dummy]
  have hstep : ∀ (cur u : FilterTuple) (l : List FilterTuple),
      shift_and_insert_loop cur corr (u :: l) =
        cur :: shift_and_insert_loop (age_tuple corr u) corr l := fun _ _ _ => rfl
  induction n with
  | zero => intro current; simp [shift_and_insert_loop, List.replicate]
  | succ m ih =>
    intro current
    rw [List.replicate_succ, hstep, hD, ih FilterTuple.DUMMY, ← List.replicate_succ]

theorem sort_cons_dummies (t : FilterTuple) (n : ℕ)
    (hdelay : t.delay ≤ FilterTuple.DUMMY.delay) :
    List.insertionSort byDelay (t :: List.replicate n FilterTuple.DUMMY) =
      t :: List.replicate n FilterTuple.DUMMY := by
  have hrep : List.insertionSort byDelay (List.replicate n FilterTuple.DUMMY) =
      List.replicate n FilterTuple.DUMMY := by
    induction n with
    | zero => rfl
    | succ m ih =>
      rw [List.replicate_succ]
      simp only [List.insertionSort]
      rw [ih]
      cases m with
      | zero => rfl
      | succ j =>
        rw [List.replicate_succ]
        simp only [List.orderedInsert]
        rw [if_pos (le_refl _), ← List.replicate_succ]
  simp only [List.insertionSort]
  rw [hrep]
  cases n with
  | zero => rfl
  | succ m =>
    rw [List.replicate_succ]
    simp only [List.orderedInsert]
    rw [if_pos hdelay, ← List.replicate_succ]

theorem valid_cons_dummies (t : FilterTuple) (htb : t.is_dummy = false) (n : ℕ) :
    TemporaryList.valid_tuples { register := t :: List.replicate n FilterTuple.DUMMY } = [t] := by
  simp only [TemporaryList.valid_tuples]
  rw [List.reverse_cons, List.reverse_replicate]
  have hD : FilterTuple.DUMMY.is_dummy = true := by decide
  have htw : List.takeWhile (fun u => u.is_dummy)
      (List.replicate n FilterTuple.DUMMY ++ [t]) = List.replicate n FilterTuple.DUMMY := by
    induction n with
    | zero => simp [List.takeWhile_cons, htb]
    | succ m ih =>
      rw [List.replicate_succ, List.cons_append, List.takeWhile_cons]
      simp [hD, ih]
  rw [htw]
  simp only [List.length_cons, List.length_replicate]
  have hn : n + 1 - n = 1 := by omega
  rw [hn]
  rfl

theorem jitter_help_single (t : FilterTuple) (p : ℝ) (hp : 0 ≤ p) :
    jitter_help [t] t p = p := by
  simp only [jitter_help, List.map_cons, List.map_nil, List.sum_cons, List.sum_nil,
    List.length_cons, List.length_nil]
  have h0 : NtpDuration.to_seconds (t.offset - t.offset) = 0 := by
    simp [NtpDuration.to_seconds]
  rw [h0]
  norm_num [Real.sqrt_zero, max_eq_right hp]

/-- C2 (amended): starting from the all-DUMMY register, inserting one valid
(non-DUMMY) tuple t whose delay is below MAX_DISPERSION, with a nonnegative
system precision, and such that the newness check passes, returns Some
statistics with jitter equal to system_precision (hence 0 exactly when the
system precision is 0) and filter_time = t.time. The claim as stated, with
jitter always 0 and for arbitrary tuples, is refuted by
clock_filter_c2_counterexample. -/
theorem clock_filter_single_valid_tuple (peer_time : NtpTimestamp) (system_precision : ℝ)
    (leap_indicator : NtpLeapIndicator) (t : FilterTuple)
    (hp : 0 ≤ system_precision) (ht : t ≠ FilterTuple.DUMMY)
    (hdelay : t.delay < NtpDuration.MAX_DISPERSION)
    (hnew : ¬ (NtpTimestamp.sub t.time peer_time ≤ 0 ∧
        leap_indicator.is_synchronized = true)) :
    (clock_filter peer_time system_precision leap_indicator ClockFilterContents.new t).map
        PeerStatistics.jitter = some system_precision
    ∧ (clock_filter peer_time system_precision leap_indicator ClockFilterContents.new t).map
        PeerStatistics.filter_time = some t.time := by
  have htb : t.is_dummy = false := by simp [FilterTuple.is_dummy, ht]
  have hshift : ClockFilterContents.new.shift_and_insert t
      (multiply_by_phi (NtpTimestamp.sub t.time peer_time)) =
      { register := t :: List.replicate 7 FilterTuple.DUMMY } := by
    simp only [ClockFilterContents.shift_and_insert, ClockFilterContents.new]
    rw [show (8 : ℕ) = 7 + 1 from rfl, shift_loop_replicate_dummy]
  have hMd : t.delay ≤ FilterTuple.DUMMY.delay := by
    simp only [FilterTuple.DUMMY]
    exact le_of_lt hdelay
  have hsort : TemporaryList.from_clock_filter_contents
      { register := t :: List.replicate 7 FilterTuple.DUMMY } =
      { register := t :: List.replicate 7 FilterTuple.DUMMY } := by
    simp only [TemporaryList.from_clock_filter_contents]
    rw [sort_cons_dummies t 7 hMd]
  have hsm : TemporaryList.smallest_delay
      { register := t :: List.replicate 7 FilterTuple.DUMMY } = t := rfl
  have hjit : TemporaryList.jitter { register := t :: List.replicate 7 FilterTuple.DUMMY } t
      system_precision = system_precision := by
    simp only [TemporaryList.jitter]
    rw [valid_cons_dummies t htb 7]
    exact jitter_help_single t system_precision hp
  simp only [clock_filter, hshift, hsort, hsm]
  rw [if_neg hnew]
  constructor
  · simp only [Option.map_some']
    rw [hjit]
  · simp only [Option.map_some']

theorem clock_filter_single_valid_tuple_witness :
    (clock_filter 0 2 NtpLeapIndicator.NoWarning ClockFilterContents.new future_time_tuple).map
        PeerStatistics.jitter = some 2
    ∧ (clock_filter 0 2 NtpLeapIndicator.NoWarning ClockFilterContents.new future_time_tuple).map
        PeerStatistics.filter_time = some future_time_tuple.time :=
  clock_filter_single_valid_tuple 0 2 NtpLeapIndicator.NoWarning future_time_tuple
    (by norm_num) (by decide) (by decide) (by decide)

/-- C2 counterexample: with system precision 1 and a valid new tuple whose
delay exceeds MAX_DISPERSION, a DUMMY tuple becomes the smallest-delay tuple,
the call passes the newness check and returns Some, yet the jitter is 1, not
0, and filter_time is 0 rather than the time 2 ^ 32 of the inserted tuple,
refuting the claim as stated. -/
theorem clock_filter_c2_counterexample :
    (clock_filter 0 1 NtpLeapIndicator.Unknown ClockFilterContents.new big_delay_tuple).map
        PeerStatistics.jitter = some 1
    ∧ (clock_filter 0 1 NtpLeapIndicator.Unknown ClockFilterContents.new big_delay_tuple).map
        PeerStatistics.filter_time = some 0
    ∧ big_delay_tuple.time = 2 ^ 32
    ∧ big_delay_tuple ≠ FilterTuple.DUMMY := by
  have hsm2 : (TemporaryList.from_clock_filter_contents
      (ClockFilterContents.new.shift_and_insert big_delay_tuple
        (multiply_by_phi (NtpTimestamp.sub big_delay_tuple.time 0)))).smallest_delay =
      FilterTuple.DUMMY := by decide
  have hv : (TemporaryList.from_clock_filter_contents
      (ClockFilterContents.new.shift_and_insert big_delay_tuple
        (multiply_by_phi (NtpTimestamp.sub big_delay_tuple.time 0)))).valid_tuples =
      List.replicate 7 FilterTuple.DUMMY ++ [big_delay_tuple] := by decide
  have hjit : jitter_help (List.replicate 7 FilterTuple.DUMMY ++ [big_delay_tuple])
      FilterTuple.DUMMY 1 = 1 := by
    simp only [jitter_help, List.replicate, List.cons_append, List.nil_append,
      List.map_cons, List.map_nil, List.sum_cons, List.sum_nil, List.length_cons,
      List.length_nil]
    have h0 : NtpDuration.to_seconds
        (FilterTuple.DUMMY.offset - FilterTuple.DUMMY.offset) = 0 := by
      simp [NtpDuration.to_seconds]
    have h1 : NtpDuration.to_seconds
        (big_delay_tuple.offset - FilterTuple.DUMMY.offset) = 0 := by
      simp [NtpDuration.to_seconds, big_delay_tuple, FilterTuple.DUMMY]
    rw [h0, h1]
    norm_num [Real.sqrt_zero]
  refine ⟨?_, ?_, by decide, by decide⟩
  · simp only [clock_filter]
    rw [if_neg (by decide)]
    simp only [Option.map_some']
    simp only [TemporaryList.jitter]
    rw [hsm2, hv, hjit]
  · simp only [clock_filter]
    rw [if_neg (by decide)]
    simp only [Option.map_some']
    rw [hsm2]
    rfl

/-- C1 counterexample: a register holding a small-delay tuple with time 5,
in the future of peer_time = 0, defeats the newness check even though the new
tuple satisfies t.time ≤ peer_time and the leap indicator indicates
synchronized: clock_filter returns Some, refuting the claim as stated. -/
theorem clock_filter_c1_counterexample :
    stale_tuple.time ≤ 0
    ∧ NtpLeapIndicator.NoWarning.is_synchronized = true
    ∧ clock_filter 0 0 NtpLeapIndicator.NoWarning
        { register := future_time_tuple :: List.replicate 7 FilterTuple.DUMMY }
        stale_tuple ≠ none := by
  refine ⟨by decide, by decide, ?_⟩
  simp only [clock_filter]
  rw [if_neg (by decide)]
  exact Option.some_ne_none _

/-- C3 counterexample: a register entry with dispersion 2 ^ 37 (twice
MAX_DISPERSION, a value arbitrary register contents permit) already pushes
the computed dispersion above MAX_DISPERSION, refuting the claim as
stated. -/
theorem dispersion_c3_counterexample :
    NtpDuration.MAX_DISPERSION <
      (TemporaryList.mk
        (high_dispersion_tuple :: List.replicate 7 FilterTuple.DUMMY)).dispersion := by
  decide

/-- C5: evaluation of the panic-aware model at the failing input. Feeding
the DUMMY tuple itself into clock_filter with an unsynchronized leap
indicator passes the newness check with an all-DUMMY register, so
valid_tuples is empty and the source expression valid_tuples.len() - 1
underflows its usize subtraction; the checked model returns none, the
underflow marker, contradicting the claim that the jitter computation never
underflows and clock_filter always returns a value without panicking. -/
theorem clock_filter_checked_underflow_on_dummy :
    clock_filter_checked 0 0 NtpLeapIndicator.Unknown ClockFilterContents.new
      FilterTuple.DUMMY = none := by
  rfl

/-- C8: for every result of handle_incoming, handle_packet emits exactly
one NewMeasurement carrying the index, the reset epoch and the snapshot, and
returns Continue, when the result is Ok; emits exactly one MustDemobilize and
returns Break (on which the event loop exits) when the result is
Err KissDemobilize; and emits nothing and returns Continue on any other
ignore reason. -/
theorem handle_packet_emissions {S : Type} (index : PeerIndex) (epoch : ResetEpoch)
    (result : Except IgnoreReason S) :
    (∀ s : S, result = Except.ok s →
        handle_packet index epoch result =
          ([MsgForSystem.NewMeasurement index epoch s], LoopFlow.Continue))
    ∧ (result = Except.error IgnoreReason.KissDemobilize →
        handle_packet index epoch result =
          ([MsgForSystem.MustDemobilize index], LoopFlow.Break))
    ∧ ∀ r : IgnoreReason, r ≠ IgnoreReason.KissDemobilize →
        result = Except.error r →
        handle_packet index epoch result = ([], LoopFlow.Continue) := by
  refine ⟨?_, ?_, ?_⟩
  · rintro s rfl; rfl
  · rintro rfl; rfl
  · rintro r hr rfl
    cases r <;> first | rfl | exact absurd rfl hr

theorem handle_packet_emissions_witness :
    handle_packet (PeerIndex.mk 0) (ResetEpoch.mk 1) (Except.ok (7 : ℕ)) =
      ([MsgForSystem.NewMeasurement (PeerIndex.mk 0) (ResetEpoch.mk 1) 7], LoopFlow.Continue)
    ∧ handle_packet (PeerIndex.mk 0) (ResetEpoch.mk 1)
        (Except.error IgnoreReason.KissDemobilize : Except IgnoreReason ℕ) =
      ([MsgForSystem.MustDemobilize (PeerIndex.mk 0)], LoopFlow.Break)
    ∧ handle_packet (PeerIndex.mk 0) (ResetEpoch.mk 1)
        (Except.error IgnoreReason.KissRateLimit : Except IgnoreReason ℕ) =
      ([], LoopFlow.Continue) :=
  ⟨(handle_packet_emissions (PeerIndex.mk 0) (ResetEpoch.mk 1) (Except.ok (7 : ℕ))).1 7 rfl,
   (handle_packet_emissions (PeerIndex.mk 0) (ResetEpoch.mk 1)
      (Except.error IgnoreReason.KissDemobilize : Except IgnoreReason ℕ)).2.1 rfl,
   (handle_packet_emissions (PeerIndex.mk 0) (ResetEpoch.mk 1)
      (Except.error IgnoreReason.KissRateLimit : Except IgnoreReason ℕ)).2.2
      IgnoreReason.KissRateLimit (by decide) rfl⟩

/-- C9: accept_packet returns Some(header, recv_timestamp) exactly when the
recv result is Ok with a kernel receive timestamp present and a received size
of at least 48, and then the header is the deserialization of the 48-byte
buffer (bytes of the datagram beyond the 48-byte buffer are ignored); on an
input error, a missing kernel timestamp, or fewer than 48 bytes it returns
None. -/
theorem accept_packet_spec (result : RecvResult) (buf : List ℕ) :
    (∀ (size : ℕ) (ts : NtpTimestamp), result = RecvResult.ok size (some ts) → 48 ≤ size →
        accept_packet result buf = some (NtpHeader.deserialize buf, ts))
    ∧ (∀ (size : ℕ) (ts : NtpTimestamp), result = RecvResult.ok size (some ts) → size < 48 →
        accept_packet result buf = none)
    ∧ (∀ size : ℕ, result = RecvResult.ok size none → accept_packet result buf = none)
    ∧ (result = RecvResult.err → accept_packet result buf = none) := by
  refine ⟨?_, ?_, ?_, ?_⟩
  · rintro size ts rfl h
    simp [accept_packet, Nat.not_lt.mpr h]
  · rintro size ts rfl h
    simp [accept_packet, h]
  · rintro size rfl; rfl
  · rintro rfl; rfl

theorem accept_packet_spec_witness :
    accept_packet (RecvResult.ok 48 (some 99)) [1, 2, 3] =
      some (NtpHeader.deserialize [1, 2, 3], 99)
    ∧ accept_packet (RecvResult.ok 47 (some 99)) [1, 2, 3] = none
    ∧ accept_packet (RecvResult.ok 48 none) [1, 2, 3] = none
    ∧ accept_packet RecvResult.err [1, 2, 3] = none :=
  ⟨(accept_packet_spec (RecvResult.ok 48 (some 99)) [1, 2, 3]).1 48 99 rfl (by decide),
   (accept_packet_spec (RecvResult.ok 47 (some 99)) [1, 2, 3]).2.1 47 99 rfl (by decide),
   (accept_packet_spec (RecvResult.ok 48 none) [1, 2, 3]).2.2.1 48 rfl,
   (accept_packet_spec RecvResult.err [1, 2, 3]).2.2.2 rfl⟩

theorem shift_and_insert_spec_witness :
    (ClockFilterContents.new.shift_and_insert future_time_tuple
        (multiply_by_phi (NtpTimestamp.sub future_time_tuple.time 0))).register.length = 8
    ∧ (ClockFilterContents.new.shift_and_insert future_time_tuple
        (multiply_by_phi (NtpTimestamp.sub future_time_tuple.time 0))).register.head? =
      some future_time_tuple :=
  (shift_and_insert_spec ClockFilterContents.new future_time_tuple 0 (by decide)).1
